import Mathlib

/-!
# The 0F1 evaluator of sasfit_sasview

A shallow embedding of `src/sasmodels/models/lib/sas_hyp0f1.c` (the dispatcher
`sas_hyp0f1` and the asymptotic evaluator `_hyp0f1_asy`), of the caller `Fq` in
`src/sasmodels/models/sasfit_boucher_sphere2.c` and of `Iq`, `Iqxy` in
`src/sasmodels/models/sasfit_TeubnerStrey.c`.

Numbers.  In the 0F1 evaluator and its caller `Fq`, a C `double` is idealised
as an element of a linearly ordered field `α` with a floor function:
arithmetic is exact, and there is no NaN.  The definitions are computable and
can be run at `α = ℚ`; the analytic statements are proved at `α = ℝ`.
Division follows the field convention `x / 0 = 0`; statements that depend on
a divisor say that it is nonzero.

Rounding.  In the Teubner-Strey model the result of every arithmetic operation
passes through a rounding operator `fl`, a parameter of `Iq` and `Iqxy`.  With
`fl = id` the arithmetic is exact; with `fl = roundDouble` it is IEEE binary64
round-to-nearest-even on 53 significant bits (the exponent range, hence
overflow and subnormal numbers, is not modelled).

Externals.  The routines the source calls but does not define (`sqrt`, `log`,
`exp`, `log1p`, `pow`, `isinf`, `xlogy`, `lgam`, `gammasgn`, `iv`, `sas_gamma`,
`sas_JN`, `sin_pi`) and the constants it takes from the C headers (`DBL_MAX`,
`DBL_MIN`, `M_PI`) are the fields of the structure `Prims`.  Since the field
`α` has no infinite element, the test `isinf` is a field of `Prims` too: a
primitive may flag any value it returns as infinite.
-/

namespace SasHyp0f1

/-- The routines and constants that `sas_hyp0f1.c` uses without defining. -/
structure Prims (α : Type) where
  sqrt : α → α
  log : α → α
  exp : α → α
  log1p : α → α
  pow : α → α → α
  isinf : α → Bool
  xlogy : α → α → α
  lgam : α → α
  gammasgn : α → α
  iv : α → α → α
  sas_gamma : α → α
  sas_JN : α → α → α
  sin_pi : α → α
  DBL_MAX : α
  DBL_MIN : α
  M_PI : α

section Code

variable {α : Type} [LinearOrderedField α] [FloorRing α]

/-- The function `_hyp0f1_asy` of `sas_hyp0f1.c`, lines 39-82.  The three
successive updates of `arg_exp_i` are the bindings `arg_exp_i0`, `arg_exp_i1`,
`arg_exp_i2`, `arg_exp_i`; the conditional `result += ...` is the last `if`. -/
def _hyp0f1_asy (P : Prims α) (v z : α) : α :=
  let arg := P.sqrt z
  let v1 := |v - 1|
  let x := 2.0 * arg / v1
  let p1 := P.sqrt (1.0 + x * x)
  let eta := p1 + P.log x - P.log1p p1
  let arg_exp_i0 := -0.5 * P.log p1
  let arg_exp_i1 := arg_exp_i0 - 0.5 * P.log (2.0 * P.M_PI * v1)
  let arg_exp_i2 := arg_exp_i1 + P.lgam v
  let gs := P.gammasgn v
  let arg_exp_k0 := arg_exp_i2
  let arg_exp_i := arg_exp_i2 + v1 * eta
  let arg_exp_k := arg_exp_k0 - v1 * eta
  let pp := 1.0 / p1
  let p2 := pp * pp
  let p4 := p2 * p2
  let p6 := p4 * p2
  let u1 := (3.0 - 5.0 * p2) * pp / 24.0
  let u2 := (81.0 - 462.0 * p2 + 385.0 * p4) * p2 / 1152.0
  let u3 := (30375.0 - 369603.0 * p2 + 765765.0 * p4 - 425425.0 * p6)
    * pp * p2 / 414720.0
  let u_corr_i := 1.0 + u1 / v1 + u2 / (v1 * v1) + u3 / (v1 * v1 * v1)
  let result := P.exp (arg_exp_i - P.xlogy v1 arg) * gs * u_corr_i
  if v - 1 < 0 then
    let u_corr_k := 1.0 - u1 / v1 + u2 / (v1 * v1) - u3 / (v1 * v1 * v1)
    result + P.exp (arg_exp_k + P.xlogy v1 arg) * gs * 2.0
      * P.sin_pi v1 * u_corr_k
  else
    result

/-- The function `sas_hyp0f1` of `sas_hyp0f1.c`, lines 7-37.  The call written
`hyp0f1_asy(v, z)` on line 26 is the asymptotic evaluator `_hyp0f1_asy`. -/
def sas_hyp0f1 (P : Prims α) (v z : α) : α :=
  if v ≤ 0.0 ∧ v = (⌊v⌋ : α) then 0.0
  else if z = 0.0 ∧ v ≠ 0.0 then 1.0
  else if |z| < 1e-6 * (1.0 + |v|) then
    1.0 + z / v + z * z / (2.0 * v * (v + 1.0))
  else if z > 0 then
    let arg := P.sqrt z
    let arg_exp := P.xlogy (1.0 - v) arg + P.lgam v
    let bess_val := P.iv (v - 1) (2.0 * arg)
    if arg_exp > P.log P.DBL_MAX ∨ bess_val = 0 ∨
        arg_exp < P.log P.DBL_MIN ∨ P.isinf bess_val = true then
      _hyp0f1_asy P v z
    else
      P.exp arg_exp * P.gammasgn v * bess_val
  else
    let arg := P.sqrt (-z)
    P.pow arg (1.0 - v) * P.sas_gamma v * P.sas_JN (v - 1) (2 * arg)

/-- The return statement of `sas_hyp0f1` that a call leaves through, in the
order of the source text. -/
inductive Route where
  | pole
  | unit
  | taylor
  | asymptotic
  | direct
  | ordinaryBessel
  deriving DecidableEq, Repr

/-- The control flow of `sas_hyp0f1` (lines 10-35): the same guards in the same
order, each branch naming its return statement instead of computing it. -/
def sas_hyp0f1_route (P : Prims α) (v z : α) : Route :=
  if v ≤ 0.0 ∧ v = (⌊v⌋ : α) then Route.pole
  else if z = 0.0 ∧ v ≠ 0.0 then Route.unit
  else if |z| < 1e-6 * (1.0 + |v|) then Route.taylor
  else if z > 0 then
    let arg := P.sqrt z
    let arg_exp := P.xlogy (1.0 - v) arg + P.lgam v
    let bess_val := P.iv (v - 1) (2.0 * arg)
    if arg_exp > P.log P.DBL_MAX ∨ bess_val = 0 ∨
        arg_exp < P.log P.DBL_MIN ∨ P.isinf bess_val = true then
      Route.asymptotic
    else
      Route.direct
  else
    Route.ordinaryBessel

/-- The value of the local `u1` of `_hyp0f1_asy` (lines 64 and 67) as a
function of `pp`. -/
def hyp0f1_asy_u1 (pp : α) : α :=
  let p2 := pp * pp
  (3.0 - 5.0 * p2) * pp / 24.0

/-- The value of the local `u2` of `_hyp0f1_asy` (lines 64, 65 and 68) as a
function of `pp`. -/
def hyp0f1_asy_u2 (pp : α) : α :=
  let p2 := pp * pp
  let p4 := p2 * p2
  (81.0 - 462.0 * p2 + 385.0 * p4) * p2 / 1152.0

/-- The value of the local `u3` of `_hyp0f1_asy` (lines 64-66 and 69-70) as a
function of `pp`. -/
def hyp0f1_asy_u3 (pp : α) : α :=
  let p2 := pp * pp
  let p4 := p2 * p2
  let p6 := p4 * p2
  (30375.0 - 369603.0 * p2 + 765765.0 * p4 - 425425.0 * p6)
    * pp * p2 / 414720.0

end Code

/-- A set of primitives over `ℚ` for running the code: every routine is a
constant or an algebraic function; `iv` returns `0` (underflow) from order
`100` on and `1` below; `sqrt` is positive on positive numbers and
`xlogy x y = x * log y`. -/
def toyPrims : Prims ℚ where
  sqrt := fun x => x
  log := fun x => x - 1
  exp := fun x => 1 + x
  log1p := fun x => x
  pow := fun x _ => x
  isinf := fun _ => false
  xlogy := fun x y => x * (y - 1)
  lgam := fun _ => 0
  gammasgn := fun _ => 1
  iv := fun order _ => if 100 ≤ order then 0 else 1
  sas_gamma := fun _ => 1
  sas_JN := fun _ _ => 1
  sin_pi := fun x => 4 * x * (1 - x)
  DBL_MAX := (2 ^ 53 - 1) * 2 ^ 971
  DBL_MIN := 1 / 2 ^ 1022
  M_PI := 355 / 113

namespace BoucherSphere

section Code

variable {α : Type} [LinearOrderedField α]

/-- Modelled from the spec: the macro `sas_pow_2` of the sasmodels kernel
header, which `src/` does not contain; the spec writes its use as the square
`(qR/2)²`. -/
def sas_pow_2 (x : α) : α := x * x

/-- Modelled from the spec: the macro `sas_pow_3` of the sasmodels kernel
header, which `src/` does not contain: the cube, as in `4/3 π R³`. -/
def sas_pow_3 (x : α) : α := x * x * x

/-- The function `Fq` of `sasfit_boucher_sphere2.c`, lines 22-31.  The GSL
routine `gsl_sf_hyperg_0F1` that it calls is a parameter. -/
def Fq (P : Prims α) (gsl_sf_hyperg_0F1 : α → α → α)
    (q R ALPHA DELTA_ETA _P0 : α) : α :=
  let beta := DELTA_ETA * sas_pow_3 R * 4.0 / 3.0 * P.M_PI
  if q * R = 0 then beta
  else beta * gsl_sf_hyperg_0F1 (0.5 * (ALPHA + 1)) (-sas_pow_2 (q * R / 2.0))

end Code

end BoucherSphere

/-- The primitives `toyPrims` with a Bessel routine that overflows: from the
argument `1000` on, `iv` returns `2 ^ 1024`, and `isinf` flags every value
from `2 ^ 1024` on as infinite. -/
def overflowPrims : Prims ℚ :=
  { toyPrims with
    iv := fun _ x => if 1000 ≤ x then 2 ^ 1024 else 1
    isinf := fun y => decide ((2 : ℚ) ^ 1024 ≤ y) }

namespace TeubnerStrey

section Code

variable {α : Type} [LinearOrderedField α]

end Code

end TeubnerStrey

/-- The mathematical primitives over `ℝ`: the real square root, logarithm,
exponential, power, gamma function and sine, with `lgam = log |Γ|`,
`gammasgn = sign Γ` and `xlogy x y = x * log y`.  The two Bessel routines,
which Mathlib does not define, are parameters.  No real number is infinite. -/
noncomputable def realPrims (iv sas_JN : ℝ → ℝ → ℝ) : Prims ℝ where
  sqrt := Real.sqrt
  log := Real.log
  exp := Real.exp
  log1p := fun x => Real.log (1 + x)
  pow := fun x y => x ^ y
  isinf := fun _ => false
  xlogy := fun x y => x * Real.log y
  lgam := fun x => Real.log |Real.Gamma x|
  gammasgn := fun x => Real.sign (Real.Gamma x)
  iv := iv
  sas_gamma := Real.Gamma
  sas_JN := sas_JN
  sin_pi := fun x => Real.sin (Real.pi * x)
  DBL_MAX := (2 ^ 53 - 1) * 2 ^ 971
  DBL_MIN := 1 / 2 ^ 1022
  M_PI := Real.pi

/-- The value of `_hyp0f1_asy v z` as the spec describes it, a second definition
to compare the source with: the prefactor `z^((1-v)/2)` of the 0F1
representation times `gs * exp base` times
`exp (v1 eta) u_corr_I + [v < 1] 2 sin_pi v1 exp (-v1 eta) u_corr_K`. -/
noncomputable def hyp0f1_asy_spec (P : Prims ℝ) (v z : ℝ) : ℝ :=
  let v1 := |v - 1|
  let a := P.sqrt z
  let x := 2 * a / v1
  let p1 := P.sqrt (1 + x ^ 2)
  let eta := p1 + P.log x - P.log1p p1
  let base := -0.5 * P.log p1 - 0.5 * P.log (2 * P.M_PI * v1) + P.lgam v
  let gs := P.gammasgn v
  let p := 1 / p1
  let u1 := (3 * p - 5 * p ^ 3) / 24
  let u2 := (81 * p ^ 2 - 462 * p ^ 4 + 385 * p ^ 6) / 1152
  let u3 := (30375 * p ^ 3 - 369603 * p ^ 5 + 765765 * p ^ 7
    - 425425 * p ^ 9) / 414720
  let u_corr_I := 1 + u1 / v1 + u2 / v1 ^ 2 + u3 / v1 ^ 3
  let u_corr_K := 1 - u1 / v1 + u2 / v1 ^ 2 - u3 / v1 ^ 3
  z ^ ((1 - v) / 2) * gs * P.exp base
    * (P.exp (v1 * eta) * u_corr_I
      + (if v < 1 then 2 * P.sin_pi v1 * P.exp (-(v1 * eta)) * u_corr_K else 0))

section Lemmas

variable {α : Type} [LinearOrderedField α]

lemma lit_zero : (0.0 : α) = 0 := by norm_num

lemma lit_one : (1.0 : α) = 1 := by norm_num

lemma lit_two : (2.0 : α) = 2 := by norm_num

lemma threshold_pos (v : α) : (1e-6 : α) ≤ 1e-6 * (1 + |v|) := by
  have h : (0 : α) ≤ |v| := abs_nonneg v
  have h6 : (0 : α) < 1e-6 := by norm_num
  nlinarith

/-- The body of `_hyp0f1_asy` from line 52 on, with the values of lines 43-47
(`arg`, `v1`, `x`, `p1`, `eta`) named. -/
lemma hyp0f1_asy_core (P : Prims α) (v z v1 arg x p1 eta : α)
    (h1 : v1 = |v - 1|) (h2 : arg = P.sqrt z) (h3 : x = 2.0 * arg / v1)
    (h4 : p1 = P.sqrt (1.0 + x * x)) (h5 : eta = p1 + P.log x - P.log1p p1) :
    _hyp0f1_asy P v z =
      (let arg_exp_i0 := -0.5 * P.log p1
      let arg_exp_i1 := arg_exp_i0 - 0.5 * P.log (2.0 * P.M_PI * v1)
      let arg_exp_i2 := arg_exp_i1 + P.lgam v
      let gs := P.gammasgn v
      let arg_exp_k0 := arg_exp_i2
      let arg_exp_i := arg_exp_i2 + v1 * eta
      let arg_exp_k := arg_exp_k0 - v1 * eta
      let pp := 1.0 / p1
      let p2 := pp * pp
      let p4 := p2 * p2
      let p6 := p4 * p2
      let u1 := (3.0 - 5.0 * p2) * pp / 24.0
      let u2 := (81.0 - 462.0 * p2 + 385.0 * p4) * p2 / 1152.0
      let u3 := (30375.0 - 369603.0 * p2 + 765765.0 * p4 - 425425.0 * p6)
        * pp * p2 / 414720.0
      let u_corr_i := 1.0 + u1 / v1 + u2 / (v1 * v1) + u3 / (v1 * v1 * v1)
      let result := P.exp (arg_exp_i - P.xlogy v1 arg) * gs * u_corr_i
      if v - 1 < 0 then
        let u_corr_k := 1.0 - u1 / v1 + u2 / (v1 * v1) - u3 / (v1 * v1 * v1)
        result + P.exp (arg_exp_k + P.xlogy v1 arg) * gs * 2.0
          * P.sin_pi v1 * u_corr_k
      else
        result) := by
  subst h1 h2 h3 h4 h5
  rfl

/-- The body of `_hyp0f1_asy` with the three correction coefficients written
as the functions `hyp0f1_asy_u1`, `hyp0f1_asy_u2`, `hyp0f1_asy_u3` of `pp`. -/
lemma hyp0f1_asy_coeffs (P : Prims α) (v z : α) :
    _hyp0f1_asy P v z =
      (let arg := P.sqrt z
      let v1 := |v - 1|
      let x := 2.0 * arg / v1
      let p1 := P.sqrt (1.0 + x * x)
      let eta := p1 + P.log x - P.log1p p1
      let arg_exp_i2 := -0.5 * P.log p1 - 0.5 * P.log (2.0 * P.M_PI * v1)
        + P.lgam v
      let gs := P.gammasgn v
      let arg_exp_i := arg_exp_i2 + v1 * eta
      let arg_exp_k := arg_exp_i2 - v1 * eta
      let pp := 1.0 / p1
      let u1 := hyp0f1_asy_u1 pp
      let u2 := hyp0f1_asy_u2 pp
      let u3 := hyp0f1_asy_u3 pp
      let u_corr_i := 1.0 + u1 / v1 + u2 / (v1 * v1) + u3 / (v1 * v1 * v1)
      let result := P.exp (arg_exp_i - P.xlogy v1 arg) * gs * u_corr_i
      if v - 1 < 0 then
        let u_corr_k := 1.0 - u1 / v1 + u2 / (v1 * v1) - u3 / (v1 * v1 * v1)
        result + P.exp (arg_exp_k + P.xlogy v1 arg) * gs * 2.0
          * P.sin_pi v1 * u_corr_k
      else
        result) :=
  rfl

lemma hyp0f1_asy_u1_eq (p : α) : hyp0f1_asy_u1 p = (3 * p - 5 * p ^ 3) / 24 := by
  simp only [hyp0f1_asy_u1]
  norm_num1
  ring

lemma hyp0f1_asy_u2_eq (p : α) :
    hyp0f1_asy_u2 p = (81 * p ^ 2 - 462 * p ^ 4 + 385 * p ^ 6) / 1152 := by
  simp only [hyp0f1_asy_u2]
  norm_num1
  ring

lemma hyp0f1_asy_u3_eq (p : α) :
    hyp0f1_asy_u3 p = (30375 * p ^ 3 - 369603 * p ^ 5 + 765765 * p ^ 7
      - 425425 * p ^ 9) / 414720 := by
  simp only [hyp0f1_asy_u3]
  norm_num1
  ring

/-- Off the order `1`, the divisor `v1 = |v - 1|` of the asymptotic evaluator is
nonzero, and `x = 2 sqrt z / v1` is positive when `sqrt z` is. -/
lemma asy_divisors_of_ne_one (P : Prims α) {v z : α} (hv : v ≠ 1)
    (hs : 0 < P.sqrt z) : |v - 1| ≠ 0 ∧ 0 < 2 * P.sqrt z / |v - 1| := by
  have h : 0 < |v - 1| := abs_pos.2 (sub_ne_zero.2 hv)
  exact ⟨h.ne', div_pos (mul_pos two_pos hs) h⟩

/-- The body of `hyp0f1_asy_spec` with `v1`, `a`, `x`, `p1`, `eta` named. -/
lemma hyp0f1_asy_spec_core (P : Prims ℝ) (v z v1 a x p1 eta : ℝ)
    (h1 : v1 = |v - 1|) (h2 : a = P.sqrt z) (h3 : x = 2 * a / v1)
    (h4 : p1 = P.sqrt (1 + x ^ 2)) (h5 : eta = p1 + P.log x - P.log1p p1) :
    hyp0f1_asy_spec P v z =
      (let base := -0.5 * P.log p1 - 0.5 * P.log (2 * P.M_PI * v1) + P.lgam v
      let gs := P.gammasgn v
      let p := 1 / p1
      let u1 := (3 * p - 5 * p ^ 3) / 24
      let u2 := (81 * p ^ 2 - 462 * p ^ 4 + 385 * p ^ 6) / 1152
      let u3 := (30375 * p ^ 3 - 369603 * p ^ 5 + 765765 * p ^ 7
        - 425425 * p ^ 9) / 414720
      let u_corr_I := 1 + u1 / v1 + u2 / v1 ^ 2 + u3 / v1 ^ 3
      let u_corr_K := 1 - u1 / v1 + u2 / v1 ^ 2 - u3 / v1 ^ 3
      z ^ ((1 - v) / 2) * gs * P.exp base
        * (P.exp (v1 * eta) * u_corr_I
          + (if v < 1 then 2 * P.sin_pi v1 * P.exp (-(v1 * eta)) * u_corr_K
            else 0))) := by
  subst h1 h2 h3 h4 h5
  rfl

/-- For `z > 0`, the prefactor `z^((1-v)/2)` is `exp ((1-v) log (sqrt z))`. -/
lemma rpow_prefactor {v z : ℝ} (hz : 0 < z) :
    z ^ ((1 - v) / 2) = Real.exp ((1 - v) * Real.log (Real.sqrt z)) := by
  rw [Real.rpow_def_of_pos hz, Real.log_sqrt hz.le]
  congr 1
  ring

/-- Over the reals, under the `xlogy` contract and for `v < 1`, `z > 0`: the
source's value differs from the spec's by the I-term taken with the factor
`exp (-v1 log a)` instead of `exp (v1 log a)`. -/
lemma hyp0f1_asy_sub_spec (P : Prims ℝ) (v z v1 a x p1 eta : ℝ)
    (hsqrt : P.sqrt = Real.sqrt) (hexp : P.exp = Real.exp)
    (hxlogy : ∀ x y : ℝ, 0 < y → P.xlogy x y = x * Real.log y)
    (hz : 0 < z) (hv : v < 1)
    (h1 : v1 = |v - 1|) (h2 : a = Real.sqrt z) (h3 : x = 2 * a / v1)
    (h4 : p1 = Real.sqrt (1 + x ^ 2)) (h5 : eta = p1 + P.log x - P.log1p p1) :
    _hyp0f1_asy P v z - hyp0f1_asy_spec P v z
      = (Real.exp (-(v1 * Real.log a)) - Real.exp (v1 * Real.log a))
        * (Real.exp (-0.5 * P.log p1 - 0.5 * P.log (2 * P.M_PI * v1) + P.lgam v
            + v1 * eta)
          * P.gammasgn v
          * (1 + (3 * (1 / p1) - 5 * (1 / p1) ^ 3) / 24 / v1
            + (81 * (1 / p1) ^ 2 - 462 * (1 / p1) ^ 4 + 385 * (1 / p1) ^ 6)
              / 1152 / v1 ^ 2
            + (30375 * (1 / p1) ^ 3 - 369603 * (1 / p1) ^ 5
              + 765765 * (1 / p1) ^ 7 - 425425 * (1 / p1) ^ 9)
              / 414720 / v1 ^ 3)) := by
  have ha : 0 < a := by rw [h2]; exact Real.sqrt_pos.2 hz
  have hx1 : P.xlogy v1 a = v1 * Real.log a := hxlogy _ _ ha
  have hv1 : v1 = 1 - v := by rw [h1, abs_of_neg (by linarith)]; ring
  have hpow : z ^ ((1 - v) / 2) = Real.exp (v1 * Real.log a) := by
    rw [rpow_prefactor hz, ← h2, ← hv1]
  have hcode := hyp0f1_asy_core P v z v1 a x p1 eta h1 (by rw [hsqrt]; exact h2)
    (by rw [lit_two]; exact h3) (by rw [hsqrt, lit_one, ← sq]; exact h4) h5
  have hspec := hyp0f1_asy_spec_core P v z v1 a x p1 eta h1
    (by rw [hsqrt]; exact h2) h3 (by rw [hsqrt]; exact h4) h5
  rw [hcode, hspec]
  clear hcode hspec h1 h2 h3 h4 h5
  simp only [if_pos (show v - 1 < 0 by linarith), if_pos hv, hx1, hexp, hpow,
    Real.exp_add, Real.exp_sub, Real.exp_neg]
  norm_num1
  ring

/-- Over the reals, under the `xlogy` contract and for `v > 1`, `z > 0`, the
source's value is the spec's: the I-term carries the prefactor `z^((1-v)/2)`. -/
lemma hyp0f1_asy_eq_spec_of_one_lt (P : Prims ℝ) (v z : ℝ)
    (hsqrt : P.sqrt = Real.sqrt) (hexp : P.exp = Real.exp)
    (hxlogy : ∀ x y : ℝ, 0 < y → P.xlogy x y = x * Real.log y)
    (hz : 0 < z) (hv : 1 < v) :
    _hyp0f1_asy P v z = hyp0f1_asy_spec P v z := by
  have ha : 0 < Real.sqrt z := Real.sqrt_pos.2 hz
  have hx1 : P.xlogy |v - 1| (Real.sqrt z) = |v - 1| * Real.log (Real.sqrt z) :=
    hxlogy _ _ ha
  have hv1 : 1 - v = -|v - 1| := by rw [abs_of_pos (by linarith)]; ring
  have hpow : z ^ ((1 - v) / 2)
      = Real.exp (-(|v - 1| * Real.log (Real.sqrt z))) := by
    rw [rpow_prefactor hz, hv1, neg_mul]
  have hcode := hyp0f1_asy_core P v z |v - 1| (Real.sqrt z)
    (2 * Real.sqrt z / |v - 1|) (Real.sqrt (1 + (2 * Real.sqrt z / |v - 1|) ^ 2))
    (Real.sqrt (1 + (2 * Real.sqrt z / |v - 1|) ^ 2)
      + P.log (2 * Real.sqrt z / |v - 1|)
      - P.log1p (Real.sqrt (1 + (2 * Real.sqrt z / |v - 1|) ^ 2)))
    rfl (by rw [hsqrt]) (by rw [lit_two]) (by rw [hsqrt, lit_one, ← sq]) rfl
  have hspec := hyp0f1_asy_spec_core P v z |v - 1| (Real.sqrt z)
    (2 * Real.sqrt z / |v - 1|) (Real.sqrt (1 + (2 * Real.sqrt z / |v - 1|) ^ 2))
    (Real.sqrt (1 + (2 * Real.sqrt z / |v - 1|) ^ 2)
      + P.log (2 * Real.sqrt z / |v - 1|)
      - P.log1p (Real.sqrt (1 + (2 * Real.sqrt z / |v - 1|) ^ 2)))
    rfl (by rw [hsqrt]) rfl (by rw [hsqrt]) rfl
  rw [hcode, hspec]
  clear hcode hspec
  generalize P.log1p (Real.sqrt (1 + (2 * Real.sqrt z / |v - 1|) ^ 2)) = l1
  generalize P.log (2 * Real.sqrt z / |v - 1|) = lx
  generalize Real.sqrt (1 + (2 * Real.sqrt z / |v - 1|) ^ 2) = p1
  simp only [if_neg (show ¬(v - 1 < 0) by linarith),
    if_neg (show ¬(v < 1) by linarith), hx1, hexp, hpow,
    Real.exp_add, Real.exp_sub, Real.exp_neg]
  norm_num1
  ring

lemma hasDerivAt_monomial (c : ℝ) (n : ℕ) (x : ℝ) :
    HasDerivAt (fun t : ℝ => c * t ^ (n + 1)) (c * ((n + 1 : ℕ) * x ^ n)) x := by
  simpa using (hasDerivAt_pow (n + 1) x).const_mul c

/-- The integral from `0` of a continuous function with a known primitive that
vanishes at `0`. -/
lemma integral_from_zero (f F : ℝ → ℝ) (hF : ∀ x, HasDerivAt F (f x) x)
    (hf : Continuous f) (hF0 : F 0 = 0) (p : ℝ) :
    ∫ t in (0 : ℝ)..p, f t = F p := by
  rw [intervalIntegral.integral_eq_sub_of_hasDerivAt (fun x _ => hF x)
    (hf.intervalIntegrable _ _), hF0, sub_zero]

lemma hyp0f1_asy_u1_hasDerivAt (x : ℝ) :
    HasDerivAt (hyp0f1_asy_u1 : ℝ → ℝ) ((3 - 15 * x ^ 2) / 24) x := by
  have h := (hasDerivAt_monomial (3 / 24) 0 x).sub
    (hasDerivAt_monomial (5 / 24) 2 x)
  have hf : (hyp0f1_asy_u1 : ℝ → ℝ)
      = fun t : ℝ => 3 / 24 * t ^ (0 + 1) - 5 / 24 * t ^ (2 + 1) := by
    funext t
    rw [hyp0f1_asy_u1_eq]
    ring
  rw [hf]
  convert h using 1
  push_cast
  ring

lemma hyp0f1_asy_u2_hasDerivAt (x : ℝ) :
    HasDerivAt (hyp0f1_asy_u2 : ℝ → ℝ)
      ((162 * x - 1848 * x ^ 3 + 2310 * x ^ 5) / 1152) x := by
  have h := ((hasDerivAt_monomial (81 / 1152) 1 x).sub
    (hasDerivAt_monomial (462 / 1152) 3 x)).add
    (hasDerivAt_monomial (385 / 1152) 5 x)
  have hf : (hyp0f1_asy_u2 : ℝ → ℝ)
      = fun t : ℝ => 81 / 1152 * t ^ (1 + 1) - 462 / 1152 * t ^ (3 + 1)
          + 385 / 1152 * t ^ (5 + 1) := by
    funext t
    rw [hyp0f1_asy_u2_eq]
    ring
  rw [hf]
  convert h using 1
  push_cast
  ring

variable [FloorRing α]

/-- The value returned on each route, with the literals of the source
normalised. -/
lemma sas_hyp0f1_unfold (P : Prims α) (v z : α) :
    sas_hyp0f1 P v z =
      if v ≤ 0 ∧ v = (⌊v⌋ : α) then 0
      else if z = 0 ∧ v ≠ 0 then 1
      else if |z| < 1e-6 * (1 + |v|) then 1 + z / v + z * z / (2 * v * (v + 1))
      else if 0 < z then
        if P.xlogy (1 - v) (P.sqrt z) + P.lgam v > P.log P.DBL_MAX ∨
            P.iv (v - 1) (2 * P.sqrt z) = 0 ∨
            P.xlogy (1 - v) (P.sqrt z) + P.lgam v < P.log P.DBL_MIN ∨
            P.isinf (P.iv (v - 1) (2 * P.sqrt z)) = true then
          _hyp0f1_asy P v z
        else
          P.exp (P.xlogy (1 - v) (P.sqrt z) + P.lgam v) * P.gammasgn v
            * P.iv (v - 1) (2 * P.sqrt z)
      else
        P.pow (P.sqrt (-z)) (1 - v) * P.sas_gamma v
          * P.sas_JN (v - 1) (2 * P.sqrt (-z)) := by
  simp only [sas_hyp0f1, lit_zero, lit_one, lit_two, gt_iff_lt]

lemma sas_hyp0f1_route_unfold (P : Prims α) (v z : α) :
    sas_hyp0f1_route P v z =
      if v ≤ 0 ∧ v = (⌊v⌋ : α) then Route.pole
      else if z = 0 ∧ v ≠ 0 then Route.unit
      else if |z| < 1e-6 * (1 + |v|) then Route.taylor
      else if 0 < z then
        if P.xlogy (1 - v) (P.sqrt z) + P.lgam v > P.log P.DBL_MAX ∨
            P.iv (v - 1) (2 * P.sqrt z) = 0 ∨
            P.xlogy (1 - v) (P.sqrt z) + P.lgam v < P.log P.DBL_MIN ∨
            P.isinf (P.iv (v - 1) (2 * P.sqrt z)) = true then
          Route.asymptotic
        else
          Route.direct
      else
        Route.ordinaryBessel := by
  simp only [sas_hyp0f1_route, lit_zero, lit_one, lit_two, gt_iff_lt]

/-- An order that passes the pole guard is not the negative of a natural
number. -/
lemma ne_neg_nat_of_not_pole {v : α} (hpole : ¬(v ≤ 0 ∧ v = (⌊v⌋ : α)))
    (m : ℕ) : v ≠ -(m : α) := by
  rintro rfl
  apply hpole
  refine ⟨by simp, ?_⟩
  have h : (-(m : α)) = ((-(m : ℤ) : ℤ) : α) := by push_cast; rfl
  rw [h, Int.floor_intCast]

/-- An order that passes the pole guard is neither `0` nor `-1`. -/
lemma ne_zero_of_not_pole {v : α} (hpole : ¬(v ≤ 0 ∧ v = (⌊v⌋ : α))) :
    v ≠ 0 := by
  simpa using ne_neg_nat_of_not_pole hpole 0

/-- Past the pole guard, a nonzero argument below the threshold takes the
Taylor return. -/
lemma sas_hyp0f1_taylor (P : Prims α) {v z : α}
    (hpole : ¬(v ≤ 0 ∧ v = (⌊v⌋ : α))) (hz : z ≠ 0)
    (hsmall : |z| < 1e-6 * (1 + |v|)) :
    sas_hyp0f1 P v z = 1 + z / v + z ^ 2 / (2 * v * (v + 1)) := by
  rw [sas_hyp0f1_unfold, if_neg hpole, if_neg (fun h => hz h.1), if_pos hsmall, sq]

/-- Past the pole guard, a zero argument takes the unit return. -/
lemma sas_hyp0f1_zero (P : Prims α) {v : α}
    (hpole : ¬(v ≤ 0 ∧ v = (⌊v⌋ : α))) : sas_hyp0f1 P v 0 = 1 := by
  rw [sas_hyp0f1_unfold, if_neg hpole, if_pos ⟨rfl, ne_zero_of_not_pole hpole⟩]

lemma abs_mul_sign_self {x : ℝ} (hx : x ≠ 0) : |x| * Real.sign x = x := by
  rcases lt_or_gt_of_ne hx with h | h
  · rw [abs_of_neg h, Real.sign_of_neg h]; ring
  · rw [abs_of_pos h, Real.sign_of_pos h]; ring

end Lemmas

section Claims

variable {α : Type} [LinearOrderedField α] [FloorRing α]

/-- C1: for an order `v` that is a non-positive integer (`v ≤ 0` and
`v = floor v`) and any argument `z`, `sas_hyp0f1 v z` leaves through the pole
return and its value is exactly `0`, whatever the external primitives are. -/
theorem C1_pole_returns_zero (P : Prims α) (v z : α)
    (hv : v ≤ 0) (hint : v = (⌊v⌋ : α)) :
    sas_hyp0f1 P v z = 0 ∧ sas_hyp0f1_route P v z = Route.pole := by
  rw [sas_hyp0f1_unfold, sas_hyp0f1_route_unfold, if_pos ⟨hv, hint⟩, if_pos ⟨hv, hint⟩]
  exact ⟨rfl, rfl⟩

/-- C1, at the spec's scenario `sas_hyp0f1(-2.0, 3.7) = 0.0`. -/
theorem C1_pole_returns_zero_witness :
    ((-2 : ℚ) ≤ 0 ∧ (-2 : ℚ) = (⌊(-2 : ℚ)⌋ : ℚ)) ∧
      (sas_hyp0f1 toyPrims (-2) 3.7 = 0 ∧
        sas_hyp0f1_route toyPrims (-2) 3.7 = Route.pole) :=
  ⟨⟨by norm_num, by norm_num⟩,
    C1_pole_returns_zero toyPrims (-2) 3.7 (by norm_num) (by norm_num)⟩

/-- C2, as stated, fails: the order `-1` is nonzero, yet
`sas_hyp0f1(-1, 0)` is `0`, not `1`, because the pole guard comes first. -/
theorem C2_counterexample :
    (-1 : ℚ) ≠ 0 ∧ sas_hyp0f1 toyPrims (-1) 0 = 0 ∧
      sas_hyp0f1 toyPrims (-1) 0 ≠ 1 ∧
      sas_hyp0f1_route toyPrims (-1) 0 = Route.pole := by
  have h : sas_hyp0f1 toyPrims (-1) 0 = 0 := by
    rw [sas_hyp0f1_unfold, if_pos (by norm_num)]
  refine ⟨by norm_num, h, by rw [h]; norm_num, ?_⟩
  rw [sas_hyp0f1_route_unfold, if_pos (by norm_num)]

/-- C2, amended: for every order `v` that is not a non-positive integer (such
an order is nonzero), `sas_hyp0f1 v 0 = 1`, through the unit return and
whatever the external primitives are. -/
theorem C2_zero_argument (P : Prims α) (v : α)
    (hpole : ¬(v ≤ 0 ∧ v = (⌊v⌋ : α))) :
    v ≠ 0 ∧ sas_hyp0f1 P v 0 = 1 ∧ sas_hyp0f1_route P v 0 = Route.unit := by
  have hv : v ≠ 0 := by
    rintro rfl
    exact hpole ⟨le_refl _, by simp⟩
  refine ⟨hv, ?_, ?_⟩
  · rw [sas_hyp0f1_unfold, if_neg hpole, if_pos ⟨rfl, hv⟩]
  · rw [sas_hyp0f1_route_unfold, if_neg hpole, if_pos ⟨rfl, hv⟩]

/-- C2, amended, at the spec's scenario `sas_hyp0f1(1.5, 0.0) = 1.0`. -/
theorem C2_zero_argument_witness :
    ¬((1.5 : ℚ) ≤ 0 ∧ (1.5 : ℚ) = (⌊(1.5 : ℚ)⌋ : ℚ)) ∧
      ((1.5 : ℚ) ≠ 0 ∧ sas_hyp0f1 toyPrims 1.5 0 = 1 ∧
        sas_hyp0f1_route toyPrims 1.5 0 = Route.unit) :=
  ⟨by norm_num, C2_zero_argument toyPrims 1.5 (by norm_num)⟩

/-- C3: for an order `v` that is not a non-positive integer and an argument
`z ≠ 0` with `|z| < 1e-6 * (1 + |v|)`, `sas_hyp0f1 v z` leaves through the
Taylor return with the value `1 + z/v + z²/(2 v (v+1))`; the value is the same
for every set of external primitives. -/
theorem C3_taylor_truncation (P : Prims α) (v z : α)
    (hpole : ¬(v ≤ 0 ∧ v = (⌊v⌋ : α))) (hz : z ≠ 0)
    (hsmall : |z| < 1e-6 * (1 + |v|)) :
    sas_hyp0f1 P v z = 1 + z / v + z ^ 2 / (2 * v * (v + 1)) ∧
      sas_hyp0f1_route P v z = Route.taylor ∧
      ∀ Q : Prims α, sas_hyp0f1 Q v z = sas_hyp0f1 P v z := by
  have hzero : ¬(z = 0 ∧ v ≠ 0) := fun h => hz h.1
  have hval : ∀ Q : Prims α,
      sas_hyp0f1 Q v z = 1 + z / v + z ^ 2 / (2 * v * (v + 1)) := by
    intro Q
    rw [sas_hyp0f1_unfold, if_neg hpole, if_neg hzero, if_pos hsmall, sq]
  refine ⟨hval P, ?_, fun Q => by rw [hval Q, hval P]⟩
  rw [sas_hyp0f1_route_unfold, if_neg hpole, if_neg hzero, if_pos hsmall]

/-- C3 at order `1.5` and argument `1e-7`. -/
theorem C3_taylor_truncation_witness :
    (¬((1.5 : ℚ) ≤ 0 ∧ (1.5 : ℚ) = (⌊(1.5 : ℚ)⌋ : ℚ)) ∧ (1e-7 : ℚ) ≠ 0 ∧
        |(1e-7 : ℚ)| < 1e-6 * (1 + |(1.5 : ℚ)|)) ∧
      (sas_hyp0f1 toyPrims 1.5 1e-7
          = 1 + 1e-7 / 1.5 + (1e-7) ^ 2 / (2 * 1.5 * (1.5 + 1)) ∧
        sas_hyp0f1_route toyPrims 1.5 1e-7 = Route.taylor ∧
        ∀ Q : Prims ℚ, sas_hyp0f1 Q 1.5 1e-7 = sas_hyp0f1 toyPrims 1.5 1e-7) :=
  ⟨⟨by norm_num, by norm_num, by norm_num [abs_of_pos]⟩,
    C3_taylor_truncation toyPrims 1.5 1e-7 (by norm_num) (by norm_num)
      (by norm_num [abs_of_pos])⟩

/-- C4: over the reals, with `sqrt` and `exp` the real functions and under the
contracts `lgam x = log |Γ x|`, `gammasgn x = sign (Γ x)` (off the poles) and
`xlogy x y = x * log y` for `y > 0`: when `v` is not a non-positive integer,
`z > 0`, the Taylor guard is not taken and the overflow guard is not
triggered, `sas_hyp0f1 v z` leaves through the direct return, its value is
`exp (xlogy (1-v) (sqrt z) + lgam v) * gammasgn v * iv (v-1) (2 sqrt z)`, and
that value is `Γ(v) * z^((1-v)/2) * iv (v-1) (2 sqrt z)`. -/
theorem C4_direct_path_closed_form (P : Prims ℝ) (v z : ℝ)
    (hsqrt : P.sqrt = Real.sqrt) (hexp : P.exp = Real.exp)
    (hlgam : ∀ x : ℝ, ¬(x ≤ 0 ∧ x = (⌊x⌋ : ℝ)) →
      P.lgam x = Real.log |Real.Gamma x|)
    (hsgn : ∀ x : ℝ, ¬(x ≤ 0 ∧ x = (⌊x⌋ : ℝ)) →
      P.gammasgn x = Real.sign (Real.Gamma x))
    (hxlogy : ∀ x y : ℝ, 0 < y → P.xlogy x y = x * Real.log y)
    (hpole : ¬(v ≤ 0 ∧ v = (⌊v⌋ : ℝ))) (hz : 0 < z)
    (htaylor : ¬(|z| < 1e-6 * (1 + |v|)))
    (hguard : ¬(P.xlogy (1 - v) (P.sqrt z) + P.lgam v > P.log P.DBL_MAX ∨
      P.iv (v - 1) (2 * P.sqrt z) = 0 ∨
      P.xlogy (1 - v) (P.sqrt z) + P.lgam v < P.log P.DBL_MIN ∨
      P.isinf (P.iv (v - 1) (2 * P.sqrt z)) = true)) :
    sas_hyp0f1_route P v z = Route.direct ∧
      sas_hyp0f1 P v z
        = P.exp (P.xlogy (1 - v) (P.sqrt z) + P.lgam v) * P.gammasgn v
            * P.iv (v - 1) (2 * P.sqrt z) ∧
      sas_hyp0f1 P v z
        = Real.Gamma v * z ^ ((1 - v) / 2) * P.iv (v - 1) (2 * Real.sqrt z) := by
  have hzero : ¬(z = 0 ∧ v ≠ 0) := fun h => hz.ne (h.1.symm)
  have hval : sas_hyp0f1 P v z
      = P.exp (P.xlogy (1 - v) (P.sqrt z) + P.lgam v) * P.gammasgn v
          * P.iv (v - 1) (2 * P.sqrt z) := by
    rw [sas_hyp0f1_unfold, if_neg hpole, if_neg hzero, if_neg htaylor, if_pos hz,
      if_neg hguard]
  refine ⟨?_, hval, ?_⟩
  · rw [sas_hyp0f1_route_unfold, if_neg hpole, if_neg hzero, if_neg htaylor,
      if_pos hz, if_neg hguard]
  · have hG : Real.Gamma v ≠ 0 :=
      Real.Gamma_ne_zero (ne_neg_nat_of_not_pole hpole)
    have hs : 0 < Real.sqrt z := Real.sqrt_pos.2 hz
    rw [hval, hexp, hsqrt, hxlogy _ _ hs, hlgam v hpole, hsgn v hpole,
      Real.exp_add, Real.exp_log (abs_pos.2 hG), Real.log_sqrt hz.le,
      Real.rpow_def_of_pos hz]
    have he : (1 - v) * (Real.log z / 2) = Real.log z * ((1 - v) / 2) := by ring
    rw [he]
    calc Real.exp (Real.log z * ((1 - v) / 2)) * |Real.Gamma v|
            * Real.sign (Real.Gamma v) * P.iv (v - 1) (2 * Real.sqrt z)
        = (|Real.Gamma v| * Real.sign (Real.Gamma v))
            * Real.exp (Real.log z * ((1 - v) / 2))
            * P.iv (v - 1) (2 * Real.sqrt z) := by ring
      _ = Real.Gamma v * Real.exp (Real.log z * ((1 - v) / 2))
            * P.iv (v - 1) (2 * Real.sqrt z) := by rw [abs_mul_sign_self hG]

/-- C4 at order `2` and argument `1`, for the real primitives with a Bessel
routine that returns `1`. -/
theorem C4_direct_path_closed_form_witness :
    (¬((2 : ℝ) ≤ 0 ∧ (2 : ℝ) = (⌊(2 : ℝ)⌋ : ℝ)) ∧ (0 : ℝ) < 1 ∧
      ¬(|(1 : ℝ)| < 1e-6 * (1 + |(2 : ℝ)|))) ∧
    sas_hyp0f1_route (realPrims (fun _ _ => 1) (fun _ _ => 1)) 2 1
        = Route.direct ∧
      sas_hyp0f1 (realPrims (fun _ _ => 1) (fun _ _ => 1)) 2 1
        = (realPrims (fun _ _ => 1) (fun _ _ => 1)).exp
            ((realPrims (fun _ _ => 1) (fun _ _ => 1)).xlogy (1 - 2)
                ((realPrims (fun _ _ => 1) (fun _ _ => 1)).sqrt 1)
              + (realPrims (fun _ _ => 1) (fun _ _ => 1)).lgam 2)
          * (realPrims (fun _ _ => 1) (fun _ _ => 1)).gammasgn 2
          * (realPrims (fun _ _ => 1) (fun _ _ => 1)).iv (2 - 1)
              (2 * (realPrims (fun _ _ => 1) (fun _ _ => 1)).sqrt 1) ∧
      sas_hyp0f1 (realPrims (fun _ _ => 1) (fun _ _ => 1)) 2 1
        = Real.Gamma 2 * (1 : ℝ) ^ (((1 : ℝ) - 2) / 2)
          * (realPrims (fun _ _ => 1) (fun _ _ => 1)).iv (2 - 1)
              (2 * Real.sqrt 1) :=
  ⟨⟨by norm_num, by norm_num, by norm_num⟩,
  C4_direct_path_closed_form (realPrims (fun _ _ => 1) (fun _ _ => 1)) 2 1
    rfl rfl (fun _ _ => rfl) (fun _ _ => rfl) (fun _ _ _ => rfl)
    (by norm_num) (by norm_num) (by norm_num)
    (by
      have h1 : Real.log ((2 ^ 53 - 1) * 2 ^ 971) > 0 :=
        Real.log_pos (by norm_num)
      have h2 : Real.log (1 / 2 ^ 1022) < 0 :=
        Real.log_neg (by positivity) (by norm_num)
      simp only [realPrims, Real.sqrt_one, Real.log_one, Real.Gamma_two, abs_one,
        mul_zero, add_zero, one_ne_zero, Bool.false_eq_true, false_or, or_false,
        not_or, not_lt, gt_iff_lt]
      exact ⟨h1.le, h2.le⟩)⟩

/-- C5: for `z > 0` past the pole, zero and Taylor guards, `sas_hyp0f1 v z`
delegates to the asymptotic evaluator if and only if `arg_exp > log DBL_MAX`
or `bess_val = 0` or `arg_exp < log DBL_MIN` or `bess_val` is infinite, and
then returns `_hyp0f1_asy v z`; otherwise it leaves through the direct return
with `exp arg_exp * gammasgn v * bess_val`, where
`log DBL_MIN ≤ arg_exp ≤ log DBL_MAX` and `bess_val` is nonzero and not
infinite.  Here `arg_exp = xlogy (1-v) (sqrt z) + lgam v` and
`bess_val = iv (v-1) (2 sqrt z)`. -/
theorem C5_overflow_guard (P : Prims α) (v z : α)
    (hpole : ¬(v ≤ 0 ∧ v = (⌊v⌋ : α))) (hz : 0 < z)
    (htaylor : ¬(|z| < 1e-6 * (1 + |v|))) :
    (sas_hyp0f1_route P v z = Route.asymptotic ↔
      (P.xlogy (1 - v) (P.sqrt z) + P.lgam v > P.log P.DBL_MAX ∨
        P.xlogy (1 - v) (P.sqrt z) + P.lgam v < P.log P.DBL_MIN ∨
        P.iv (v - 1) (2 * P.sqrt z) = 0 ∨
        P.isinf (P.iv (v - 1) (2 * P.sqrt z)) = true)) ∧
    (sas_hyp0f1_route P v z = Route.asymptotic →
      sas_hyp0f1 P v z = _hyp0f1_asy P v z) ∧
    (sas_hyp0f1_route P v z ≠ Route.asymptotic →
      sas_hyp0f1_route P v z = Route.direct ∧
      sas_hyp0f1 P v z
        = P.exp (P.xlogy (1 - v) (P.sqrt z) + P.lgam v) * P.gammasgn v
            * P.iv (v - 1) (2 * P.sqrt z) ∧
      P.log P.DBL_MIN ≤ P.xlogy (1 - v) (P.sqrt z) + P.lgam v ∧
      P.xlogy (1 - v) (P.sqrt z) + P.lgam v ≤ P.log P.DBL_MAX ∧
      P.iv (v - 1) (2 * P.sqrt z) ≠ 0 ∧
      P.isinf (P.iv (v - 1) (2 * P.sqrt z)) = false) := by
  have hzero : ¬(z = 0 ∧ v ≠ 0) := fun h => hz.ne (h.1.symm)
  rw [sas_hyp0f1_unfold, sas_hyp0f1_route_unfold, if_neg hpole, if_neg hzero,
    if_neg htaylor, if_pos hz, if_neg hpole, if_neg hzero, if_neg htaylor,
    if_pos hz]
  by_cases hg : P.xlogy (1 - v) (P.sqrt z) + P.lgam v > P.log P.DBL_MAX ∨
      P.iv (v - 1) (2 * P.sqrt z) = 0 ∨
      P.xlogy (1 - v) (P.sqrt z) + P.lgam v < P.log P.DBL_MIN ∨
      P.isinf (P.iv (v - 1) (2 * P.sqrt z)) = true
  · rw [if_pos hg, if_pos hg]
    refine ⟨⟨fun _ => ?_, fun _ => rfl⟩, fun _ => rfl, fun h => absurd rfl h⟩
    tauto
  · rw [if_neg hg, if_neg hg]
    refine ⟨⟨fun h => Route.noConfusion h, fun h => absurd ?_ hg⟩,
      fun h => Route.noConfusion h, fun _ => ?_⟩
    · tauto
    · simp only [not_or, not_lt, gt_iff_lt, Bool.not_eq_true] at hg
      exact ⟨rfl, rfl, hg.2.2.1, hg.1, hg.2.1, hg.2.2.2⟩

/-- C5 run on both sides of the guard: at `(2, 1)` the direct return yields
`1`; at `(300, 50)` the Bessel routine underflows to `0` and the call
delegates. -/
theorem C5_overflow_guard_witness :
    (sas_hyp0f1_route toyPrims 2 1 = Route.direct ∧
      sas_hyp0f1 toyPrims 2 1 = 1) ∧
    (sas_hyp0f1_route toyPrims 300 50 = Route.asymptotic ∧
      sas_hyp0f1 toyPrims 300 50 = _hyp0f1_asy toyPrims 300 50) := by
  have h1 := C5_overflow_guard toyPrims 2 1 (by norm_num) (by norm_num)
    (by norm_num [abs_of_pos])
  have h2 := C5_overflow_guard toyPrims 300 50 (by norm_num) (by norm_num)
    (by norm_num [abs_of_pos])
  have r1 : sas_hyp0f1_route toyPrims 2 1 ≠ Route.asymptotic := by
    rw [Ne, h1.1]
    norm_num [toyPrims]
  have r2 : sas_hyp0f1_route toyPrims 300 50 = Route.asymptotic := by
    rw [h2.1]
    norm_num [toyPrims]
  obtain ⟨hd, hv, -⟩ := h1.2.2 r1
  refine ⟨⟨hd, ?_⟩, r2, h2.2.1 r2⟩
  rw [hv]
  norm_num [toyPrims]

/-- C6: for an order `v` that is not a non-positive integer and `z < 0` with
`|z| ≥ 1e-6 * (1 + |v|)`, `sas_hyp0f1 v z` leaves through the last return with
the value `a^(1-v) * sas_gamma v * sas_JN (v-1) (2a)`, `a = sqrt (-z)`; any two
primitive sets that agree on `sqrt`, `pow`, `sas_gamma` and `sas_JN` give the
same result, so `lgam`, `gammasgn`, `xlogy`, `iv` and the asymptotic evaluator
play no part. -/
theorem C6_negative_argument (P : Prims α) (v z : α)
    (hpole : ¬(v ≤ 0 ∧ v = (⌊v⌋ : α))) (hz : z < 0)
    (hbig : 1e-6 * (1 + |v|) ≤ |z|) :
    sas_hyp0f1_route P v z = Route.ordinaryBessel ∧
      sas_hyp0f1 P v z
        = P.pow (P.sqrt (-z)) (1 - v) * P.sas_gamma v
            * P.sas_JN (v - 1) (2 * P.sqrt (-z)) ∧
      ∀ Q : Prims α, Q.sqrt = P.sqrt → Q.pow = P.pow →
        Q.sas_gamma = P.sas_gamma → Q.sas_JN = P.sas_JN →
        sas_hyp0f1 Q v z = sas_hyp0f1 P v z := by
  have hzero : ¬(z = 0 ∧ v ≠ 0) := fun h => hz.ne h.1
  have hval : ∀ Q : Prims α, sas_hyp0f1 Q v z
      = Q.pow (Q.sqrt (-z)) (1 - v) * Q.sas_gamma v
          * Q.sas_JN (v - 1) (2 * Q.sqrt (-z)) := by
    intro Q
    rw [sas_hyp0f1_unfold, if_neg hpole, if_neg hzero, if_neg (not_lt.2 hbig),
      if_neg (not_lt.2 hz.le)]
  refine ⟨?_, hval P, ?_⟩
  · rw [sas_hyp0f1_route_unfold, if_neg hpole, if_neg hzero,
      if_neg (not_lt.2 hbig), if_neg (not_lt.2 hz.le)]
  · intro Q h1 h2 h3 h4
    rw [hval Q, hval P, h1, h2, h3, h4]

/-- C6 at order `1.5` and argument `-1`. -/
theorem C6_negative_argument_witness :
    (¬((1.5 : ℚ) ≤ 0 ∧ (1.5 : ℚ) = (⌊(1.5 : ℚ)⌋ : ℚ)) ∧ (-1 : ℚ) < 0 ∧
        1e-6 * (1 + |(1.5 : ℚ)|) ≤ |(-1 : ℚ)|) ∧
      sas_hyp0f1_route toyPrims 1.5 (-1) = Route.ordinaryBessel ∧
      sas_hyp0f1 toyPrims 1.5 (-1)
        = toyPrims.pow (toyPrims.sqrt (-(-1))) (1 - 1.5) * toyPrims.sas_gamma 1.5
            * toyPrims.sas_JN (1.5 - 1) (2 * toyPrims.sqrt (-(-1))) :=
  have h := C6_negative_argument toyPrims 1.5 (-1) (by norm_num) (by norm_num)
    (by norm_num [abs_of_pos])
  ⟨⟨by norm_num, by norm_num, by norm_num [abs_of_pos]⟩, h.1, h.2.1⟩

/-- C7: over the reals, for an order `v` that is not a non-positive integer,
`sas_hyp0f1 v 0 = 1`; on the punctured neighbourhood `0 < |z| < 1e-6 (1+|v|)`
the function is the Taylor polynomial `1 + z/v + z²/(2v(v+1))` whatever the
sign of `z` and the external primitives; and `sas_hyp0f1 v z` tends to `1` as
`z` tends to `0` from above and from below. -/
theorem C7_limit_at_zero (P : Prims ℝ) (v : ℝ)
    (hpole : ¬(v ≤ 0 ∧ v = (⌊v⌋ : ℝ))) :
    sas_hyp0f1 P v 0 = 1 ∧
      (∀ z : ℝ, z ≠ 0 → |z| < 1e-6 * (1 + |v|) →
        sas_hyp0f1 P v z = 1 + z / v + z ^ 2 / (2 * v * (v + 1))) ∧
      Filter.Tendsto (fun z => sas_hyp0f1 P v z) (nhdsWithin 0 (Set.Ioi 0))
        (nhds 1) ∧
      Filter.Tendsto (fun z => sas_hyp0f1 P v z) (nhdsWithin 0 (Set.Iio 0))
        (nhds 1) := by
  have h0 : sas_hyp0f1 P v 0 = 1 := sas_hyp0f1_zero P hpole
  have hT : ∀ z : ℝ, z ≠ 0 → |z| < 1e-6 * (1 + |v|) →
      sas_hyp0f1 P v z = 1 + z / v + z ^ 2 / (2 * v * (v + 1)) :=
    fun z hz hs => sas_hyp0f1_taylor P hpole hz hs
  have hδ : (0 : ℝ) < 1e-6 * (1 + |v|) :=
    lt_of_lt_of_le (by norm_num) (threshold_pos v)
  have hev : ∀ᶠ z in nhds (0 : ℝ),
      1 + z / v + z ^ 2 / (2 * v * (v + 1)) = sas_hyp0f1 P v z := by
    filter_upwards [eventually_abs_sub_lt (0 : ℝ) hδ] with z hz
    rw [sub_zero] at hz
    by_cases hz0 : z = 0
    · rw [hz0, h0]; norm_num
    · exact (hT z hz0 hz).symm
  have hcont : Continuous fun z : ℝ => 1 + z / v + z ^ 2 / (2 * v * (v + 1)) := by
    fun_prop
  have hlim : Filter.Tendsto (fun z : ℝ => 1 + z / v + z ^ 2 / (2 * v * (v + 1)))
      (nhds 0) (nhds 1) := by
    have h := hcont.tendsto 0
    norm_num at h
    exact h
  have hmain : Filter.Tendsto (fun z => sas_hyp0f1 P v z) (nhds 0) (nhds 1) :=
    hlim.congr' hev
  exact ⟨h0, hT, hmain.mono_left nhdsWithin_le_nhds,
    hmain.mono_left nhdsWithin_le_nhds⟩

/-- C7 at order `1.5`, for the real primitives. -/
theorem C7_limit_at_zero_witness :
    ¬((1.5 : ℝ) ≤ 0 ∧ (1.5 : ℝ) = (⌊(1.5 : ℝ)⌋ : ℝ)) ∧
      sas_hyp0f1 (realPrims (fun _ _ => 1) (fun _ _ => 1)) 1.5 0 = 1 ∧
      Filter.Tendsto
        (fun z => sas_hyp0f1 (realPrims (fun _ _ => 1) (fun _ _ => 1)) 1.5 z)
        (nhdsWithin 0 (Set.Ioi 0)) (nhds 1) ∧
      Filter.Tendsto
        (fun z => sas_hyp0f1 (realPrims (fun _ _ => 1) (fun _ _ => 1)) 1.5 z)
        (nhdsWithin 0 (Set.Iio 0)) (nhds 1) :=
  have hp : ¬((1.5 : ℝ) ≤ 0 ∧ (1.5 : ℝ) = (⌊(1.5 : ℝ)⌋ : ℝ)) := by norm_num
  have h := C7_limit_at_zero (realPrims (fun _ _ => 1) (fun _ _ => 1)) 1.5 hp
  ⟨hp, h.1, h.2.2.1, h.2.2.2⟩

/-- C8: when `0.5 (ALPHA+1)` is not a non-positive integer and `q R = 0`,
`sas_hyp0f1 (0.5 (ALPHA+1)) (-(qR/2)²) = 1`; the boucher-sphere `Fq` returns
`beta = DELTA_ETA R³ 4/3 π` there, which is `beta` times that value. -/
theorem C8_boucher_sphere_at_zero (P : Prims α) (F : α → α → α)
    (q R ALPHA DELTA_ETA P0 : α)
    (hpole : ¬(0.5 * (ALPHA + 1) ≤ 0 ∧
      0.5 * (ALPHA + 1) = (⌊0.5 * (ALPHA + 1)⌋ : α)))
    (hq : q * R = 0) :
    sas_hyp0f1 P (0.5 * (ALPHA + 1)) (-BoucherSphere.sas_pow_2 (q * R / 2)) = 1 ∧
      BoucherSphere.Fq P F q R ALPHA DELTA_ETA P0
        = DELTA_ETA * R ^ 3 * 4 / 3 * P.M_PI ∧
      BoucherSphere.Fq P F q R ALPHA DELTA_ETA P0
        = DELTA_ETA * R ^ 3 * 4 / 3 * P.M_PI
          * sas_hyp0f1 P (0.5 * (ALPHA + 1))
              (-BoucherSphere.sas_pow_2 (q * R / 2)) := by
  have harg : -BoucherSphere.sas_pow_2 (q * R / 2) = 0 := by
    simp [BoucherSphere.sas_pow_2, hq]
  have h1 : sas_hyp0f1 P (0.5 * (ALPHA + 1))
      (-BoucherSphere.sas_pow_2 (q * R / 2)) = 1 := by
    rw [harg]; exact sas_hyp0f1_zero P hpole
  have h2 : BoucherSphere.Fq P F q R ALPHA DELTA_ETA P0
      = DELTA_ETA * R ^ 3 * 4 / 3 * P.M_PI := by
    simp only [BoucherSphere.Fq, BoucherSphere.sas_pow_3, if_pos hq]
    have h4 : (4.0 : α) = 4 := by norm_num
    have h3 : (3.0 : α) = 3 := by norm_num
    rw [h4, h3]
    ring
  exact ⟨h1, h2, by rw [h1, h2, mul_one]⟩

/-- C8 at the spec's scenario `ALPHA = 2` (order `1.5`), `q = 0`, `R = 1`. -/
theorem C8_boucher_sphere_at_zero_witness :
    (¬(0.5 * ((2 : ℚ) + 1) ≤ 0 ∧
        0.5 * ((2 : ℚ) + 1) = (⌊0.5 * ((2 : ℚ) + 1)⌋ : ℚ)) ∧ (0 : ℚ) * 1 = 0) ∧
      sas_hyp0f1 toyPrims (0.5 * (2 + 1))
        (-BoucherSphere.sas_pow_2 (0 * 1 / 2)) = 1 ∧
      BoucherSphere.Fq toyPrims (sas_hyp0f1 toyPrims) 0 1 2 1 0
        = 1 * 1 ^ 3 * 4 / 3 * toyPrims.M_PI :=
  have hp : ¬(0.5 * ((2 : ℚ) + 1) ≤ 0 ∧
      0.5 * ((2 : ℚ) + 1) = (⌊0.5 * ((2 : ℚ) + 1)⌋ : ℚ)) := by norm_num
  have h := C8_boucher_sphere_at_zero toyPrims (sas_hyp0f1 toyPrims) 0 1 2 1 0 hp
    (by norm_num)
  ⟨⟨hp, by norm_num⟩, h.1, h.2.1⟩

/-- C9: whenever `sas_hyp0f1 v z` delegates to the asymptotic evaluator, `z > 0`,
indeed `z ≥ 1e-6 (1+|v|) ≥ 1e-6`, and `v` is not a non-positive integer, so
every non-negative square root of `z` is strictly positive; and whenever it
leaves through the negative-argument return, `-z > 0`. -/
theorem C9_asymptotic_domain (P : Prims α) (v z : α) :
    (sas_hyp0f1_route P v z = Route.asymptotic →
      0 < z ∧ 1e-6 ≤ 1e-6 * (1 + |v|) ∧ 1e-6 * (1 + |v|) ≤ z ∧
      ¬(v ≤ 0 ∧ v = (⌊v⌋ : α)) ∧ ∀ s : α, 0 ≤ s → s * s = z → 0 < s) ∧
    (sas_hyp0f1_route P v z = Route.ordinaryBessel →
      0 < -z ∧ 1e-6 * (1 + |v|) ≤ -z ∧
      ∀ s : α, 0 ≤ s → s * s = -z → 0 < s) := by
  have hroot : ∀ t : α, 0 < t → ∀ s : α, 0 ≤ s → s * s = t → 0 < s := by
    intro t ht s hs hst
    rcases hs.eq_or_lt with h | h
    · rw [← h, mul_zero] at hst
      exact absurd hst ht.ne
    · exact h
  rw [sas_hyp0f1_route_unfold]
  by_cases h1 : v ≤ 0 ∧ v = (⌊v⌋ : α)
  · rw [if_pos h1]
    exact ⟨fun h => Route.noConfusion h, fun h => Route.noConfusion h⟩
  rw [if_neg h1]
  by_cases h2 : z = 0 ∧ v ≠ 0
  · rw [if_pos h2]
    exact ⟨fun h => Route.noConfusion h, fun h => Route.noConfusion h⟩
  rw [if_neg h2]
  by_cases h3 : |z| < 1e-6 * (1 + |v|)
  · rw [if_pos h3]
    exact ⟨fun h => Route.noConfusion h, fun h => Route.noConfusion h⟩
  rw [if_neg h3]
  have h3le : 1e-6 * (1 + |v|) ≤ |z| := not_lt.1 h3
  by_cases h4 : 0 < z
  · rw [if_pos h4]
    refine ⟨fun _ => ⟨h4, threshold_pos v, ?_, h1, hroot z h4⟩, fun h => ?_⟩
    · rwa [abs_of_pos h4] at h3le
    · split_ifs at h
  · rw [if_neg h4]
    have hz0 : z ≠ 0 := fun h => h2 ⟨h, ne_zero_of_not_pole h1⟩
    have hneg : z < 0 := lt_of_le_of_ne (not_lt.1 h4) hz0
    refine ⟨fun h => Route.noConfusion h, fun _ => ⟨neg_pos.2 hneg, ?_,
      hroot (-z) (neg_pos.2 hneg)⟩⟩
    rwa [abs_of_neg hneg] at h3le

/-- C9 on two calls that reach the square roots: `(300, 50)` delegates to the
asymptotic evaluator, `(1.5, -1)` takes the negative-argument return. -/
theorem C9_asymptotic_domain_witness :
    (sas_hyp0f1_route toyPrims 300 50 = Route.asymptotic ∧ (0 : ℚ) < 50 ∧
      1e-6 * (1 + |(300 : ℚ)|) ≤ 50) ∧
    (sas_hyp0f1_route toyPrims 1.5 (-1) = Route.ordinaryBessel ∧
      (0 : ℚ) < -(-1)) := by
  have r1 : sas_hyp0f1_route toyPrims 300 50 = Route.asymptotic := by
    norm_num [sas_hyp0f1_route_unfold, toyPrims, abs_of_pos]
  have r2 : sas_hyp0f1_route toyPrims 1.5 (-1) = Route.ordinaryBessel := by
    norm_num [sas_hyp0f1_route_unfold, toyPrims, abs_of_pos]
  have h1 := (C9_asymptotic_domain toyPrims 300 50).1 r1
  have h2 := (C9_asymptotic_domain toyPrims 1.5 (-1)).2 r2
  exact ⟨⟨r1, h1.1, h1.2.2.1⟩, r2, h2.1⟩

end Claims

section AsymptoticClaims

variable {α : Type} [LinearOrderedField α]

/-- C10: let `v ≠ 1` and `z > 0`, with `sqrt` positive on positive numbers and
`xlogy x y = x * log y` for `y > 0`.  With `v1 = |v-1|`, `a = sqrt z`,
`x = 2a/v1`, `p1 = sqrt (1+x²)`, `eta = p1 + log x - log1p p1`,
`base = -0.5 log p1 - 0.5 log (2π v1) + lgam v`, `gs = gammasgn v`, the
coefficients `u1`, `u2`, `u3` of the source in `p = 1/p1`,
`u_corr_I = 1 + u1/v1 + u2/v1² + u3/v1³` and
`u_corr_K = 1 - u1/v1 + u2/v1² - u3/v1³`: the divisor `v1` is nonzero;
`_hyp0f1_asy v z` is `exp (base + v1 eta - v1 log a) * gs * u_corr_I` when
`v - 1 ≥ 0`, and is that term plus
`exp (base - v1 eta + v1 log a) * gs * 2 * sin_pi v1 * u_corr_K` when
`v - 1 < 0`. -/
theorem C10_asymptotic_two_terms (P : Prims α) (v z : α)
    (hv : v ≠ 1) (hz : 0 < z)
    (hsqrt : ∀ t : α, 0 < t → 0 < P.sqrt t)
    (hxlogy : ∀ x y : α, 0 < y → P.xlogy x y = x * P.log y) :
    let v1 := |v - 1|
    let a := P.sqrt z
    let x := 2 * a / v1
    let p1 := P.sqrt (1 + x ^ 2)
    let eta := p1 + P.log x - P.log1p p1
    let base := -0.5 * P.log p1 - 0.5 * P.log (2 * P.M_PI * v1) + P.lgam v
    let gs := P.gammasgn v
    let p := 1 / p1
    let u1 := (3 * p - 5 * p ^ 3) / 24
    let u2 := (81 * p ^ 2 - 462 * p ^ 4 + 385 * p ^ 6) / 1152
    let u3 := (30375 * p ^ 3 - 369603 * p ^ 5 + 765765 * p ^ 7
      - 425425 * p ^ 9) / 414720
    let u_corr_I := 1 + u1 / v1 + u2 / v1 ^ 2 + u3 / v1 ^ 3
    let u_corr_K := 1 - u1 / v1 + u2 / v1 ^ 2 - u3 / v1 ^ 3
    v1 ≠ 0 ∧
      (0 ≤ v - 1 → _hyp0f1_asy P v z
        = P.exp (base + v1 * eta - v1 * P.log a) * gs * u_corr_I) ∧
      (v - 1 < 0 → _hyp0f1_asy P v z
        = P.exp (base + v1 * eta - v1 * P.log a) * gs * u_corr_I
          + P.exp (base - v1 * eta + v1 * P.log a) * gs * 2 * P.sin_pi v1
            * u_corr_K) := by
  have hx : P.xlogy |v - 1| (P.sqrt z) = |v - 1| * P.log (P.sqrt z) :=
    hxlogy _ _ (hsqrt z hz)
  intro v1 a x p1 eta base gs p u1 u2 u3 u_corr_I u_corr_K
  have hcore := hyp0f1_asy_core P v z v1 a x p1 eta rfl rfl
    (by rw [lit_two]) (by rw [lit_one, ← sq]) rfl
  have hx1 : P.xlogy v1 a = v1 * P.log a := hx
  have hv1 : v1 ≠ 0 := abs_ne_zero.2 (sub_ne_zero.2 hv)
  simp only [u_corr_I, u_corr_K, u1, u2, u3, p, base, gs]
  clear_value eta p1 x a v1
  rw [hcore]
  refine ⟨hv1, fun h => ?_, fun h => ?_⟩
  · simp only [if_neg (not_lt.2 h), hx1]
    norm_num1
    ring_nf
  · simp only [if_pos h, hx1]
    norm_num1
    ring_nf

/-- C10 run on both sides of the test `v - 1 < 0`: order `0.5` takes the
two-term form, order `3` the one-term form. -/
theorem C10_asymptotic_two_terms_witness :
    (((0.5 : ℚ) ≠ 1 ∧ (0 : ℚ) < 1 ∧ (0.5 : ℚ) - 1 < 0) ∧
      _hyp0f1_asy toyPrims 0.5 1
        = -87010787964974561 / 3405285752398560) ∧
    (((3 : ℚ) ≠ 1 ∧ (0 : ℚ) ≤ 3 - 1) ∧
      _hyp0f1_asy toyPrims 3 1 = -343745624453 / 63984107520) := by
  have hs : ∀ t : ℚ, 0 < t → 0 < toyPrims.sqrt t := fun t ht => ht
  have hl : ∀ x y : ℚ, 0 < y → toyPrims.xlogy x y = x * toyPrims.log y :=
    fun _ _ _ => rfl
  have h1 := (C10_asymptotic_two_terms toyPrims 0.5 1 (by norm_num)
    (by norm_num) hs hl).2.2 (by norm_num)
  have h2 := (C10_asymptotic_two_terms toyPrims 3 1 (by norm_num)
    (by norm_num) hs hl).2.1 (by norm_num)
  refine ⟨⟨by norm_num, ?_⟩, ⟨by norm_num, ?_⟩⟩
  · rw [h1]
    norm_num [toyPrims, abs_of_neg, abs_of_pos]
  · rw [h2]
    norm_num [toyPrims, abs_of_neg, abs_of_pos]

end AsymptoticClaims

section ScalingClaims

/-- C11 fails on the code for orders below `1`.  At `v = 1/2`, `z = 9/256`
(`a = 3/16`, `v1 = 1/2`) and the real primitives, the value of `_hyp0f1_asy`
is not the value with the prefactor `z^((1-v)/2)` on both terms: the I-branch
factor `exp (-xlogy v1 a)` is `a^(v-1)`, which differs from `a^(1-v)`, while
the K-branch factor `exp (xlogy v1 a)` is `a^(1-v)`. -/
theorem C11_scaling_fails_below_one :
    _hyp0f1_asy (realPrims (fun _ _ => 1) (fun _ _ => 1)) (1 / 2) (9 / 256)
        ≠ hyp0f1_asy_spec (realPrims (fun _ _ => 1) (fun _ _ => 1)) (1 / 2)
            (9 / 256) ∧
      Real.exp (-((realPrims (fun _ _ => 1) (fun _ _ => 1)).xlogy
          |(1 / 2 : ℝ) - 1| (Real.sqrt (9 / 256))))
        = Real.sqrt (9 / 256) ^ ((1 / 2 : ℝ) - 1) ∧
      Real.exp (-((realPrims (fun _ _ => 1) (fun _ _ => 1)).xlogy
          |(1 / 2 : ℝ) - 1| (Real.sqrt (9 / 256))))
        ≠ Real.sqrt (9 / 256) ^ (1 - (1 / 2 : ℝ)) ∧
      Real.exp ((realPrims (fun _ _ => 1) (fun _ _ => 1)).xlogy
          |(1 / 2 : ℝ) - 1| (Real.sqrt (9 / 256)))
        = Real.sqrt (9 / 256) ^ (1 - (1 / 2 : ℝ)) := by
  have h1 : (1 / 2 : ℝ) = |(1 / 2 : ℝ) - 1| := by
    rw [abs_of_neg (by norm_num)]
    norm_num
  have h2 : (3 / 16 : ℝ) = Real.sqrt (9 / 256) := by
    rw [show (9 / 256 : ℝ) = (3 / 16) ^ 2 by norm_num,
      Real.sqrt_sq (by norm_num)]
  have h4 : (5 / 4 : ℝ) = Real.sqrt (1 + (3 / 4) ^ 2) := by
    rw [show (1 + (3 / 4) ^ 2 : ℝ) = (5 / 4) ^ 2 by norm_num,
      Real.sqrt_sq (by norm_num)]
  have hlog : Real.log (3 / 16) < 0 := Real.log_neg (by norm_num) (by norm_num)
  have hne : Real.exp (-(1 / 2 * Real.log (3 / 16)))
      ≠ Real.exp (1 / 2 * Real.log (3 / 16)) := by
    intro h
    have := Real.exp_injective h
    linarith
  have hxl : (realPrims (fun _ _ => 1) (fun _ _ => 1)).xlogy
      |(1 / 2 : ℝ) - 1| (Real.sqrt (9 / 256)) = 1 / 2 * Real.log (3 / 16) := by
    rw [← h1, ← h2]
    rfl
  have hp1 : Real.sqrt (9 / 256) ^ ((1 / 2 : ℝ) - 1)
      = Real.exp (-(1 / 2 * Real.log (3 / 16))) := by
    rw [← h2, Real.rpow_def_of_pos (by norm_num)]
    congr 1
    ring
  have hp2 : Real.sqrt (9 / 256) ^ (1 - (1 / 2 : ℝ))
      = Real.exp (1 / 2 * Real.log (3 / 16)) := by
    rw [← h2, Real.rpow_def_of_pos (by norm_num)]
    congr 1
    ring
  refine ⟨fun heq => ?_, by rw [hxl, hp1], by rw [hxl, hp2]; exact hne,
    by rw [hxl, hp2]⟩
  have hgap := hyp0f1_asy_sub_spec (realPrims (fun _ _ => 1) (fun _ _ => 1))
    (1 / 2) (9 / 256) (1 / 2) (3 / 16) (3 / 4) (5 / 4)
    (5 / 4 + Real.log (3 / 4) - Real.log (1 + 5 / 4))
    rfl rfl (fun _ _ _ => rfl) (by norm_num) (by norm_num) h1 h2 (by norm_num)
    h4 rfl
  rw [sub_eq_zero.2 heq] at hgap
  have hG : 0 < Real.Gamma (1 / 2) := Real.Gamma_pos_of_pos (by norm_num)
  have hgs : (realPrims (fun _ _ => 1) (fun _ _ => 1)).gammasgn (1 / 2) = 1 :=
    Real.sign_of_pos hG
  rw [hgs] at hgap
  rcases mul_eq_zero.1 hgap.symm with h | h
  · exact hne (sub_eq_zero.1 h)
  · rcases mul_eq_zero.1 h with h | h
    · rcases mul_eq_zero.1 h with h | h
      · exact (Real.exp_pos _).ne' h
      · exact one_ne_zero h
    · norm_num at h

end ScalingClaims

section CoefficientClaims

/-- C12: the correction coefficients that `_hyp0f1_asy` computes are the
functions `hyp0f1_asy_u1`, `hyp0f1_asy_u2`, `hyp0f1_asy_u3` of `p = 1/p1`;
they are the polynomials `(3p - 5p³)/24`, `(81p² - 462p⁴ + 385p⁶)/1152` and
`(30375p³ - 369603p⁵ + 765765p⁷ - 425425p⁹)/414720`; and with `U₀ = 1` they
satisfy `U_{k+1}(p) = ½ p² (1-p²) U_k'(p) + ⅛ ∫₀^p (1 - 5t²) U_k(t) dt` for
`k = 0, 1, 2`. -/
theorem C12_dlmf_coefficients :
    (∀ (P : Prims ℝ) (v z : ℝ), _hyp0f1_asy P v z =
      (let arg := P.sqrt z
      let v1 := |v - 1|
      let x := 2.0 * arg / v1
      let p1 := P.sqrt (1.0 + x * x)
      let eta := p1 + P.log x - P.log1p p1
      let arg_exp_i2 := -0.5 * P.log p1 - 0.5 * P.log (2.0 * P.M_PI * v1)
        + P.lgam v
      let gs := P.gammasgn v
      let arg_exp_i := arg_exp_i2 + v1 * eta
      let arg_exp_k := arg_exp_i2 - v1 * eta
      let pp := 1.0 / p1
      let u1 := hyp0f1_asy_u1 pp
      let u2 := hyp0f1_asy_u2 pp
      let u3 := hyp0f1_asy_u3 pp
      let u_corr_i := 1.0 + u1 / v1 + u2 / (v1 * v1) + u3 / (v1 * v1 * v1)
      let result := P.exp (arg_exp_i - P.xlogy v1 arg) * gs * u_corr_i
      if v - 1 < 0 then
        let u_corr_k := 1.0 - u1 / v1 + u2 / (v1 * v1) - u3 / (v1 * v1 * v1)
        result + P.exp (arg_exp_k + P.xlogy v1 arg) * gs * 2.0
          * P.sin_pi v1 * u_corr_k
      else
        result)) ∧
    (∀ p : ℝ, hyp0f1_asy_u1 p = (3 * p - 5 * p ^ 3) / 24 ∧
      hyp0f1_asy_u2 p = (81 * p ^ 2 - 462 * p ^ 4 + 385 * p ^ 6) / 1152 ∧
      hyp0f1_asy_u3 p = (30375 * p ^ 3 - 369603 * p ^ 5 + 765765 * p ^ 7
        - 425425 * p ^ 9) / 414720) ∧
    (∀ p : ℝ, hyp0f1_asy_u1 p
      = 1 / 2 * p ^ 2 * (1 - p ^ 2) * deriv (fun _ : ℝ => (1 : ℝ)) p
        + 1 / 8 * ∫ t in (0 : ℝ)..p, (1 - 5 * t ^ 2) * 1) ∧
    (∀ p : ℝ, hyp0f1_asy_u2 p
      = 1 / 2 * p ^ 2 * (1 - p ^ 2) * deriv (hyp0f1_asy_u1 : ℝ → ℝ) p
        + 1 / 8 * ∫ t in (0 : ℝ)..p, (1 - 5 * t ^ 2) * hyp0f1_asy_u1 t) ∧
    (∀ p : ℝ, hyp0f1_asy_u3 p
      = 1 / 2 * p ^ 2 * (1 - p ^ 2) * deriv (hyp0f1_asy_u2 : ℝ → ℝ) p
        + 1 / 8 * ∫ t in (0 : ℝ)..p, (1 - 5 * t ^ 2) * hyp0f1_asy_u2 t) := by
  refine ⟨fun P v z => hyp0f1_asy_coeffs P v z,
    fun p => ⟨hyp0f1_asy_u1_eq p, hyp0f1_asy_u2_eq p, hyp0f1_asy_u3_eq p⟩,
    fun p => ?_, fun p => ?_, fun p => ?_⟩
  · have hI : ∫ t in (0 : ℝ)..p, (1 - 5 * t ^ 2) * 1 = p - 5 / 3 * p ^ 3 := by
      refine integral_from_zero (fun t => (1 - 5 * t ^ 2) * 1)
        (fun t => t - 5 / 3 * t ^ 3) (fun x => ?_) (by fun_prop) (by norm_num) p
      have h := (hasDerivAt_monomial 1 0 x).sub (hasDerivAt_monomial (5 / 3) 2 x)
      convert h using 1
      · funext t
        ring
      · push_cast
        ring
    rw [hI, deriv_const, hyp0f1_asy_u1_eq]
    ring
  · have hI : ∫ t in (0 : ℝ)..p, (1 - 5 * t ^ 2) * hyp0f1_asy_u1 t
        = (3 / 2 * p ^ 2 - 5 * p ^ 4 + 25 / 6 * p ^ 6) / 24 := by
      have hfun : (fun t : ℝ => (1 - 5 * t ^ 2) * hyp0f1_asy_u1 t)
          = fun t : ℝ => (3 * t - 20 * t ^ 3 + 25 * t ^ 5) / 24 := by
        funext t
        rw [hyp0f1_asy_u1_eq]
        ring
      rw [hfun]
      refine integral_from_zero (fun t => (3 * t - 20 * t ^ 3 + 25 * t ^ 5) / 24)
        (fun t => (3 / 2 * t ^ 2 - 5 * t ^ 4 + 25 / 6 * t ^ 6) / 24)
        (fun x => ?_) (by fun_prop) (by norm_num) p
      have h := ((hasDerivAt_monomial (3 / 48) 1 x).sub
        (hasDerivAt_monomial (5 / 24) 3 x)).add
        (hasDerivAt_monomial (25 / 144) 5 x)
      convert h using 1
      · funext t
        ring
      · push_cast
        ring
    rw [hI, (hyp0f1_asy_u1_hasDerivAt p).deriv, hyp0f1_asy_u2_eq]
    ring
  · have hI : ∫ t in (0 : ℝ)..p, (1 - 5 * t ^ 2) * hyp0f1_asy_u2 t
        = (27 * p ^ 3 - 867 / 5 * p ^ 5 + 385 * p ^ 7 - 1925 / 9 * p ^ 9)
          / 1152 := by
      have hfun : (fun t : ℝ => (1 - 5 * t ^ 2) * hyp0f1_asy_u2 t)
          = fun t : ℝ => (81 * t ^ 2 - 867 * t ^ 4 + 2695 * t ^ 6
              - 1925 * t ^ 8) / 1152 := by
        funext t
        rw [hyp0f1_asy_u2_eq]
        ring
      rw [hfun]
      refine integral_from_zero
        (fun t => (81 * t ^ 2 - 867 * t ^ 4 + 2695 * t ^ 6 - 1925 * t ^ 8) / 1152)
        (fun t => (27 * t ^ 3 - 867 / 5 * t ^ 5 + 385 * t ^ 7
          - 1925 / 9 * t ^ 9) / 1152)
        (fun x => ?_) (by fun_prop) (by norm_num) p
      have h := (((hasDerivAt_monomial (27 / 1152) 2 x).sub
        (hasDerivAt_monomial (867 / 5760) 4 x)).add
        (hasDerivAt_monomial (385 / 1152) 6 x)).sub
        (hasDerivAt_monomial (1925 / 10368) 8 x)
      convert h using 1
      · funext t
        ring
      · push_cast
        ring
    rw [hI, (hyp0f1_asy_u2_hasDerivAt p).deriv, hyp0f1_asy_u3_eq]
    ring

end CoefficientClaims

section DivisorClaims

variable {α : Type} [LinearOrderedField α] [FloorRing α]

/-- C14: whenever `sas_hyp0f1 v z` leaves through the Taylor return, `v` is not
a non-positive integer, so `v ≠ 0`, `v + 1 ≠ 0` and both divisors `v` and
`2 v (v+1)` of the returned expression are nonzero, for every `z` and every
set of primitives. -/
theorem C14_taylor_divisors (P : Prims α) (v z : α)
    (h : sas_hyp0f1_route P v z = Route.taylor) :
    ¬(v ≤ 0 ∧ v = (⌊v⌋ : α)) ∧ v ≠ 0 ∧ v + 1 ≠ 0 ∧ 2 * v * (v + 1) ≠ 0 ∧
      sas_hyp0f1 P v z = 1 + z / v + z * z / (2 * v * (v + 1)) := by
  have hpole : ¬(v ≤ 0 ∧ v = (⌊v⌋ : α)) := by
    intro hp
    rw [sas_hyp0f1_route_unfold, if_pos hp] at h
    exact Route.noConfusion h
  have h0 : v ≠ 0 := ne_zero_of_not_pole hpole
  have h1 : v + 1 ≠ 0 := by
    intro h1
    have := ne_neg_nat_of_not_pole hpole 1
    apply this
    rw [Nat.cast_one]
    exact eq_neg_of_add_eq_zero_left h1
  refine ⟨hpole, h0, h1, mul_ne_zero (mul_ne_zero two_ne_zero h0) h1, ?_⟩
  rw [sas_hyp0f1_route_unfold, if_neg hpole] at h
  rw [sas_hyp0f1_unfold, if_neg hpole]
  by_cases h2 : z = 0 ∧ v ≠ 0
  · rw [if_pos h2] at h
    exact Route.noConfusion h
  rw [if_neg h2] at h
  rw [if_neg h2]
  by_cases h3 : |z| < 1e-6 * (1 + |v|)
  · rw [if_pos h3]
  · rw [if_neg h3] at h
    split_ifs at h

/-- C14 at order `1.5` and argument `1e-7`, which take the Taylor return. -/
theorem C14_taylor_divisors_witness :
    sas_hyp0f1_route toyPrims 1.5 1e-7 = Route.taylor ∧
      (1.5 : ℚ) ≠ 0 ∧ (2 : ℚ) * 1.5 * (1.5 + 1) ≠ 0 := by
  have r : sas_hyp0f1_route toyPrims 1.5 1e-7 = Route.taylor := by
    norm_num [sas_hyp0f1_route_unfold, abs_of_pos]
  have h := C14_taylor_divisors toyPrims 1.5 1e-7 r
  exact ⟨r, h.2.1, h.2.2.2.1⟩

/-- C13 fails on the code at order `1`: with `z = 1000000` and a Bessel routine
that overflows there, `arg_exp = 0` passes both logarithmic tests, the infinite
`bess_val` sends the call to the asymptotic evaluator, and the divisor
`v1 = |v - 1|` of `x = 2 sqrt z / v1` is `0`. -/
theorem C13_zero_divisor_at_order_one :
    sas_hyp0f1_route overflowPrims 1 1000000 = Route.asymptotic ∧
      sas_hyp0f1 overflowPrims 1 1000000 = _hyp0f1_asy overflowPrims 1 1000000 ∧
      overflowPrims.xlogy (1 - 1) (overflowPrims.sqrt 1000000)
        + overflowPrims.lgam 1 = 0 ∧
      overflowPrims.isinf
        (overflowPrims.iv (1 - 1) (2 * overflowPrims.sqrt 1000000)) = true ∧
      |(1 : ℚ) - 1| = 0 := by
  have hg : overflowPrims.xlogy (1 - 1) (overflowPrims.sqrt 1000000)
        + overflowPrims.lgam 1 > overflowPrims.log overflowPrims.DBL_MAX ∨
      overflowPrims.iv (1 - 1) (2 * overflowPrims.sqrt 1000000) = 0 ∨
      overflowPrims.xlogy (1 - 1) (overflowPrims.sqrt 1000000)
        + overflowPrims.lgam 1 < overflowPrims.log overflowPrims.DBL_MIN ∨
      overflowPrims.isinf
        (overflowPrims.iv (1 - 1) (2 * overflowPrims.sqrt 1000000)) = true := by
    norm_num [overflowPrims, toyPrims]
  have hp : ¬((1 : ℚ) ≤ 0 ∧ (1 : ℚ) = (⌊(1 : ℚ)⌋ : ℚ)) := by norm_num
  have hz : ¬((1000000 : ℚ) = 0 ∧ (1 : ℚ) ≠ 0) := by norm_num
  have ht : ¬(|(1000000 : ℚ)| < 1e-6 * (1 + |(1 : ℚ)|)) := by
    norm_num [abs_of_pos]
  have hpos : (0 : ℚ) < 1000000 := by norm_num
  refine ⟨?_, ?_, ?_, ?_, ?_⟩
  · rw [sas_hyp0f1_route_unfold, if_neg hp, if_neg hz, if_neg ht, if_pos hpos,
      if_pos hg]
  · rw [sas_hyp0f1_unfold, if_neg hp, if_neg hz, if_neg ht, if_pos hpos,
      if_pos hg]
  · norm_num [overflowPrims, toyPrims]
  · norm_num [overflowPrims, toyPrims]
  · norm_num

end DivisorClaims

section TeubnerStreyClaims

end TeubnerStreyClaims

section TeubnerStreyAmended

variable {α : Type} [LinearOrderedField α]

end TeubnerStreyAmended

end SasHyp0f1
